import Mathlib

/-!
Verification of the go-firmata OneWire layer (src/util.go, src/onewire.go).

The Go source is shallowly embedded: bytes are `Nat` values below 256, byte
slices are `List Nat`, and Go's byte-width truncation (`byte(x << s)`, uint16
arithmetic) is rendered with explicit `% 256` / `% 65536`.  Go `int32` fields
are rendered as `Int`, with the arithmetic right shift `x >> k` rendered as
`Int.fdiv x (2^k)` (floor division, which is what an arithmetic shift computes)
and `x & 0xff` as `Int.emod x 256` (the low byte of the two's-complement
representation, always non-negative).

Out-of-range slice indexing, which panics in Go, is rendered with `List.getD`
(default 0); every theorem below only exercises inputs on which the Go code
indexes in range, except where a note says otherwise.

`From7BitMulti` iterates a cursor over the input with data-dependent skips; the
Go `for` loop is rendered with a fuel parameter (`from7Go`), started with fuel
`data.length`, which dominates the iteration count because the cursor strictly
increases and stays below `data.length` while the loop runs.
-/

set_option maxRecDepth 16000

/-- Embedding of `to7Bit` (src/util.go:21-23): splits a byte into its low 7
bits and its high bit, each delivered as a 7-bit-safe byte. -/
def to7Bit (i : Nat) : List Nat := [i &&& 0x7f, (i >>> 7) &&& 0x7f]

/-- Loop of `To7BitMulti` (src/util.go:63-89).  State: remaining input,
`shift`, `prev` (the carry accumulator).  Each arm mirrors one branch of the
Go loop body; the final flush (`if shift > 0`) is the `[]` arm. -/
def to7Loop : List Nat → Nat → Nat → List Nat
  | [], shift, prev => if shift > 0 then [prev] else []
  | b :: rest, shift, prev =>
    if shift = 0 then
      (b &&& 0x7f) :: to7Loop rest 1 (b >>> 7)
    else if shift = 6 then
      (((b <<< 6) % 256 &&& 0x7f) ||| prev) :: (b >>> 1) :: to7Loop rest 0 prev
    else
      (((b <<< shift) % 256 &&& 0x7f) ||| prev) :: to7Loop rest (shift + 1) (b >>> (8 - (shift + 1)))

/-- Embedding of `To7BitMulti` (src/util.go:63-89): converts 8-bit data to the
transport's 7-bit encoding. -/
def To7BitMulti (data : List Nat) : List Nat := to7Loop data 0 0

/-- Loop of `From7BitMulti` (src/util.go:43-61), rendered with fuel.  The Go
loop guard is `int(i) < len(data)-3`, i.e. `i + 3 < data.length` over `Nat`;
the body bumps `i` once more whenever `i > 0 && i % 7 == 0`, reads
`data[i+2]` and `data[i+3]`, and cycles `shift` through 0..6. -/
def from7Go (data : List Nat) : Nat → Nat → Nat → List Nat
  | 0, _, _ => []
  | fuel + 1, i, shift =>
    if i + 3 < data.length then
      let i' := if 0 < i ∧ i % 7 = 0 then i + 1 else i
      let j := i' + 2
      let d := ((data.getD j 0) >>> shift) ||| (((data.getD (j + 1) 0) <<< (7 - shift)) % 256)
      let shift' := if shift + 1 > 6 then 0 else shift + 1
      d :: from7Go data fuel (i' + 1) shift'
    else []

/-- Embedding of `From7BitMulti` (src/util.go:43-61): converts 7-bit encoded
data back to 8-bit. -/
def From7BitMulti (data : List Nat) : List Nat := from7Go data data.length 0 0

/-- Modelled from the spec: the OneWire command-flag constants
(`OW_RESET`, `OW_SKIP`, `OW_SELECT`, `OW_READ`, `OW_DELAY`, `OW_WRITE`) are
declared in a file of this repository that is not under src/.  Section 3 of
the spec describes them as "a bitmask of independent operation components",
and src/onewire.go:107 tests the READ flag as `0x8`, which pins down the
conventional Firmata OneWire bit assignment used here. -/
def OW_RESET : Nat := 0x1

/-- Modelled from the spec: see `OW_RESET`. -/
def OW_SKIP : Nat := 0x2

/-- Modelled from the spec: see `OW_RESET`. -/
def OW_SELECT : Nat := 0x4

/-- Modelled from the spec: see `OW_RESET`; corroborated by src/onewire.go:107. -/
def OW_READ : Nat := 0x8

/-- Modelled from the spec: see `OW_RESET`. -/
def OW_DELAY : Nat := 0x10

/-- Modelled from the spec: see `OW_RESET`. -/
def OW_WRITE : Nat := 0x20

/-- Embedding of `OneWireRequest` (src/onewire.go:14-27).  The Go `int32`
fields are `Int` here. -/
structure OneWireRequest where
  Command : Nat
  Address : List Nat
  ReadCount : Int
  CorrelationId : Int
  DelayMs : Int
  Data : List Nat

/-- Low byte of a Go `int32`: `byte(x & 0xff)`. -/
def int32Byte0 (x : Int) : Nat := (x.emod 256).toNat

/-- Second byte of a Go `int32`: `byte(x >> 8 & 0xff)` (arithmetic shift =
floor division). -/
def int32Byte1 (x : Int) : Nat := ((x.fdiv 256).emod 256).toNat

/-- Third byte of a Go `int32`: `byte(x >> 16 & 0xff)`. -/
def int32Byte2 (x : Int) : Nat := ((x.fdiv 65536).emod 256).toNat

/-- Fourth byte of a Go `int32`: `byte(x >> 24 & 0xff)`. -/
def int32Byte3 (x : Int) : Nat := ((x.fdiv 16777216).emod 256).toNat

/-- Embedding of `OneWireRequest.Encode` (src/onewire.go:30-52): builds the
8-bit body by conditional appends, then packs it with `To7BitMulti`. -/
def OneWireRequest.Encode (r : OneWireRequest) : List Nat :=
  let d : List Nat := []
  let d := if r.Command &&& OW_SELECT > 0 then d ++ r.Address else d
  let d := if r.Command &&& OW_READ > 0 then
      d ++ [int32Byte0 r.ReadCount, int32Byte1 r.ReadCount,
            int32Byte0 r.CorrelationId, int32Byte1 r.CorrelationId]
    else d
  let d := if r.Command &&& OW_DELAY > 0 then
      d ++ [int32Byte0 r.DelayMs, int32Byte1 r.DelayMs,
            int32Byte2 r.DelayMs, int32Byte3 r.DelayMs]
    else d
  let d := if r.Command &&& OW_WRITE > 0 then d ++ r.Data else d
  To7BitMulti d

/-- Request body as the spec's section 4.2 words it, for comparison with
`OneWireRequest.Encode`: the concatenation, in order, of the address (if
SELECT), the little-endian read-count and correlation id (if READ), the
little-endian 32-bit delay (if DELAY), and the write payload (if WRITE). -/
def specRequestBody (r : OneWireRequest) : List Nat :=
  (if r.Command &&& OW_SELECT > 0 then r.Address else []) ++
  (if r.Command &&& OW_READ > 0 then
      [int32Byte0 r.ReadCount, int32Byte1 r.ReadCount,
       int32Byte0 r.CorrelationId, int32Byte1 r.CorrelationId]
    else []) ++
  (if r.Command &&& OW_DELAY > 0 then
      [int32Byte0 r.DelayMs, int32Byte1 r.DelayMs,
       int32Byte2 r.DelayMs, int32Byte3 r.DelayMs]
    else []) ++
  (if r.Command &&& OW_WRITE > 0 then r.Data else [])

/-- One pass of the inner bit loop of `OneWireCrc8` (src/onewire.go:58-65),
on the state (crc, b). -/
def crc8Step (cb : Nat × Nat) : Nat × Nat :=
  let crc := cb.1
  let b := cb.2
  let mix := (crc ^^^ b) &&& 1
  let crc := crc >>> 1
  let crc := if mix > 0 then crc ^^^ 0x8C else crc
  (crc, b >>> 1)

/-- Embedding of `OneWireCrc8` (src/onewire.go:55-68): Dallas/Maxim CRC-8,
polynomial 0x8C, LSB first; the Go inner loop runs exactly 8 times per byte. -/
def OneWireCrc8 (data : List Nat) : Nat :=
  data.foldl (fun crc b => (crc8Step^[8] (crc, b)).1) 0

/-- Payload that `FirmataClient.OneWireConfig` (src/onewire.go:71-79) hands to
`sendSysEx` after the subcommand byte: only element 0 of each `to7Bit` pair is
passed. -/
def OneWireConfigPayload (csPin owPowerMode : Nat) : List Nat :=
  let csPinBytes := to7Bit csPin
  let powerModeBytes := to7Bit owPowerMode
  [csPinBytes.getD 0 0, powerModeBytes.getD 0 0]

/-- Config request body as the spec's section 6 words it:
`[csPin_7bitLow, csPin_7bitHigh, powerMode_7bitLow, powerMode_7bitHigh]`. -/
def specConfigBody (csPin owPowerMode : Nat) : List Nat :=
  to7Bit csPin ++ to7Bit owPowerMode

/-- Loop of `FirmataClient.OneWireSearch` (src/onewire.go:86-92): `i` is the
range index over the delivered (already unpacked) reply, `t` the address
being accumulated. -/
def owSearchLoop : List Nat → Nat → List Nat → List (List Nat)
  | [], _, _ => []
  | d :: rest, i, t =>
    let t' := t ++ [d]
    if 0 < i ∧ i % 8 = 7 then t' :: owSearchLoop rest (i + 1) []
    else owSearchLoop rest (i + 1) t'

/-- Embedding of the address-partitioning step of `FirmataClient.OneWireSearch`
(src/onewire.go:82-94), applied to the unpacked reply buffer read from the
delivery channel. -/
def OneWireSearch (dataOut : List Nat) : List (List Nat) := owSearchLoop dataOut 0 []

/-- Partitioning as the spec's section 4.3 words it: consecutive 8-byte
groups in arrival order, a trailing partial group silently dropped. -/
def addressGroups (l : List Nat) : List (List Nat) :=
  if _h8 : 8 ≤ l.length then l.take 8 :: addressGroups (l.drop 8) else []
termination_by l.length
decreasing_by simp [List.length_drop]; omega

/-- Error delivered by `Ds18x20.ReadScratchPad` on a CRC mismatch
(src/onewire.go:171): it carries the received CRC, the computed CRC and the
raw scratchpad. -/
inductive OwError where
  | crcMismatch (received computed : Nat) (raw : List Nat)
deriving DecidableEq

/-- Embedding of the `Ds18x20` device state (src/onewire.go:120-137).  The
`Temperature` field is `float32` in Go; every value the code ever stores in it
is an integer below 2^16 divided by 16, which float32 represents exactly, so
`ℚ` renders it without loss.  The `Client` and `Pin` fields carry no state the
claims touch and are omitted. -/
structure Ds18x20 where
  Address : List Nat
  scratch : List Nat
  Temperature : ℚ
  RegisterTh : Nat
  RegisterTl : Nat
  ConfigRegister : Nat

/-- Embedding of `Ds18x20.GetResolution` (src/onewire.go:219-222). -/
def Ds18x20.GetResolution (d : Ds18x20) : Nat :=
  ((d.ConfigRegister >>> 5) &&& 0x3) + 9

/-- Masking switch of `Ds18x20.parseTemperature` (src/onewire.go:205-212):
zero out bits that are undefined at lower resolutions; no arm fires for 12. -/
def resolutionMask (res raw : Nat) : Nat :=
  if res = 9 then raw &&& 0xfff8
  else if res = 10 then raw &&& 0xfffc
  else if res = 11 then raw &&& 0xfffe
  else raw

/-- Embedding of `Ds18x20.parseTemperature` (src/onewire.go:198-216).  The
uint16 arithmetic of the legacy (family 0x10) branch wraps modulo 65536; Go's
uint16 subtraction is rendered as `+ 65536 - x` under the final `% 65536`. -/
def Ds18x20.parseTemperature (d : Ds18x20) : Ds18x20 :=
  let raw := (d.scratch.getD 0 0) ||| (((d.scratch.getD 1 0) <<< 8) % 65536)
  if d.Address.getD 0 0 = 0x10 then
    let raw2 := (raw <<< 3) % 65536
    let v := ((raw2 &&& 0xFFF0) + 12 + 65536 - (d.scratch.getD 6 0) % 256) % 65536
    { d with Temperature := (v : ℚ) / 16 }
  else
    let raw2 := resolutionMask d.GetResolution raw
    { d with Temperature := (raw2 : ℚ) / 16 }

/-- Embedding of `Ds18x20.ReadScratchPad` (src/onewire.go:155-178) from the
point where the reply bytes for the RESET|SELECT|WRITE|READ request have been
delivered: `reply` is `scratch` as returned by `OneWireCommand`.  The function
returns the updated device state together with the error, mirroring a Go
method on a pointer receiver that both mutates and returns.  Note the order
of events in the source: `d.scratch` is overwritten *before* the CRC check,
and `parseTemperature` runs *before* `ConfigRegister`/`RegisterTh`/
`RegisterTl` are refreshed. -/
def Ds18x20.ReadScratchPad (d : Ds18x20) (reply : List Nat) : Ds18x20 × Option OwError :=
  let d1 := { d with scratch := reply.drop 2 }
  let crc := d1.scratch.getD (d1.scratch.length - 1) 0
  let c := OneWireCrc8 (d1.scratch.take (d1.scratch.length - 1))
  if c ≠ crc then
    (d1, some (OwError.crcMismatch crc c d1.scratch))
  else
    let d2 := d1.parseTemperature
    let d3 := { d2 with
      ConfigRegister := d2.scratch.getD 4 0,
      RegisterTh := d2.scratch.getD 2 0,
      RegisterTl := d2.scratch.getD 3 0 }
    (d3, none)

/-- Embedding of `Ds18x20.Resolution` (src/onewire.go:181-195).  The source
validates the argument before building any request and before any transport
interaction; the embedding returns `.error` in that case, and otherwise the
`OneWireRequest` that is handed to `OneWireCommand` (the transport itself is
outside src/).  `ReadCount` and `DelayMs` keep Go's zero values. -/
def Ds18x20.Resolution (d : Ds18x20) (r : Nat) : Except String OneWireRequest :=
  if r < 9 ∨ 12 < r then
    .error "resolution must be between 9 and 12!"
  else
    .ok { Command := OW_RESET ||| OW_SELECT ||| OW_WRITE
          Address := d.Address
          ReadCount := 0
          CorrelationId := 0x1234
          DelayMs := 0
          Data := [0x4e, 0x0, 0x0] ++ [((r - 9) <<< 6) % 256] }

/-! ## Auxiliary lemmas -/

/-- The `From7BitMulti` loop produces nothing once fewer than four bytes lie
beyond the cursor. -/
theorem from7Go_stop (data : List Nat) (fuel i shift : Nat)
    (h : ¬ i + 3 < data.length) : from7Go data fuel i shift = [] := by
  cases fuel with
  | zero => rfl
  | succ n => simp only [from7Go, if_neg h]

/-- The search loop, run with a cursor congruent to the accumulator's length
modulo 8, produces exactly the 8-byte groups of the accumulator followed by
the remaining input. -/
theorem owSearchLoop_eq_addressGroups (l : List Nat) :
    ∀ (i : Nat) (t : List Nat), i % 8 = t.length → t.length < 8 →
      owSearchLoop l i t = addressGroups (t ++ l) := by
  induction l with
  | nil =>
    intro i t hmod hlt
    rw [owSearchLoop, addressGroups]
    rw [dif_neg (by simp; omega)]
  | cons d rest ih =>
    intro i t hmod hlt
    by_cases h7 : t.length = 7
    · have hcond : 0 < i ∧ i % 8 = 7 := by omega
      rw [owSearchLoop, if_pos hcond]
      have hlen8 : (t ++ [d]).length = 8 := by simp [h7]
      have : t ++ d :: rest = (t ++ [d]) ++ rest := by simp
      rw [this, addressGroups, dif_pos (by simp; omega)]
      rw [List.take_left' hlen8, List.drop_left' hlen8]
      rw [ih (i + 1) [] (by simp; omega) (by simp)]
      simp
    · have hcond : ¬ (0 < i ∧ i % 8 = 7) := by omega
      rw [owSearchLoop, if_neg hcond]
      rw [ih (i + 1) (t ++ [d]) (by simp; omega) (by simp; omega)]
      simp

/-- Every byte the packing loop emits has its high bit clear, provided the
input bytes fit in 8 bits, the carry fits in 7 bits and the shift state is in
its reachable range 0..6. -/
theorem to7Loop_lt128 (B : List Nat) :
    ∀ (s prev : Nat), (∀ b ∈ B, b < 256) → s ≤ 6 → prev < 128 →
      ∀ x ∈ to7Loop B s prev, x < 128 := by
  induction B with
  | nil =>
    intro s prev _ _ hprev x hx
    rw [to7Loop] at hx
    split at hx
    · simp at hx; omega
    · simp at hx
  | cons b rest ih =>
    intro s prev hB hs hprev x hx
    have hb : b < 256 := hB b (by simp)
    have hrest : ∀ y ∈ rest, y < 256 := fun y hy => hB y (by simp [hy])
    rw [to7Loop] at hx
    split at hx
    · rcases List.mem_cons.mp hx with rfl | hx'
      · exact Nat.lt_succ_of_le Nat.and_le_right
      · exact ih 1 (b >>> 7) hrest (by omega)
          (by rw [Nat.shiftRight_eq_div_pow]; omega) x hx'
    · split at hx
      · rcases List.mem_cons.mp hx with rfl | hx'
        · exact Nat.or_lt_two_pow (n := 7) (Nat.lt_succ_of_le Nat.and_le_right) hprev
        · rcases List.mem_cons.mp hx' with rfl | hx''
          · rw [Nat.shiftRight_eq_div_pow]; omega
          · exact ih 0 prev hrest (by omega) hprev x hx''
      · rcases List.mem_cons.mp hx with rfl | hx'
        · exact Nat.or_lt_two_pow (n := 7) (Nat.lt_succ_of_le Nat.and_le_right) hprev
        · rename_i hs0 hs6
          exact ih (s + 1) (b >>> (8 - (s + 1))) hrest (by omega)
            (by rw [Nat.shiftRight_eq_div_pow]
                have : 2 ≤ 8 - (s + 1) → b / 2 ^ (8 - (s + 1)) < 128 := by
                  intro h2
                  have : b / 2 ^ (8 - (s + 1)) ≤ b / 2 ^ 2 :=
                    Nat.div_le_div_left (Nat.pow_le_pow_right (by omega) h2) (by positivity)
                  omega
                have h1 : 8 - (s + 1) ≥ 2 := by omega
                exact this h1) x hx'

/-! ## Claim theorems -/

/-- C10: for every input buffer of length at most 3 the unpacker returns the
empty buffer (its loop guard is `i + 3 < len`), and in particular the 2-byte
packed encoding of any single-byte buffer unpacks to nothing. -/
theorem c10_from7BitMulti_short_input_empty :
    (∀ data : List Nat, data.length ≤ 3 → From7BitMulti data = []) ∧
    (∀ b : Nat, From7BitMulti (To7BitMulti [b]) = []) := by
  have h : ∀ data : List Nat, data.length ≤ 3 → From7BitMulti data = [] := by
    intro data hlen
    exact from7Go_stop data data.length 0 0 (by omega)
  refine ⟨h, fun b => h _ ?_⟩
  show (to7Loop [b] 0 0).length ≤ 3
  simp [to7Loop]

/-- C10 witness: the theorem at two concrete inputs. -/
theorem c10_witness :
    From7BitMulti [0x10, 0x20, 0x30] = [] ∧ From7BitMulti (To7BitMulti [0x12]) = [] :=
  ⟨c10_from7BitMulti_short_input_empty.1 [0x10, 0x20, 0x30] (by decide),
   c10_from7BitMulti_short_input_empty.2 0x12⟩

/-- C1 counterexample: the round-trip law as stated fails already on the
single-byte buffer 0x12, which packs to two bytes and unpacks to nothing. -/
theorem c1_roundtrip_counterexample :
    From7BitMulti (To7BitMulti [0x12]) ≠ [0x12] := by decide

/-- C4 counterexample: for csPin 133 and powerMode 0 the body actually handed
to the transport differs from the four-byte body the claim describes
(low/high pair of each argument). -/
theorem c4_config_counterexample :
    OneWireConfigPayload 133 0 ≠ specConfigBody 133 0 := by decide

/-- C4 amended: the config request body after the subcommand byte consists of
exactly two bytes, the low 7 bits of csPin and the low 7 bits of powerMode;
the high-bit bytes computed by to7Bit are dropped. -/
theorem c4_config_body_two_bytes (csPin owPowerMode : Nat) :
    OneWireConfigPayload csPin owPowerMode = [csPin &&& 0x7f, owPowerMode &&& 0x7f] := rfl

/-- C9: an out-of-range resolution argument yields the error return before
any request is built, and an in-range one yields the RESET|SELECT|WRITE
request with payload 0x4e, 0, 0, (r-9)<<6. -/
theorem c9_resolution_range_check (d : Ds18x20) (r : Nat) :
    ((r < 9 ∨ 12 < r) → d.Resolution r = .error "resolution must be between 9 and 12!") ∧
    (9 ≤ r → r ≤ 12 →
      d.Resolution r = .ok { Command := OW_RESET ||| OW_SELECT ||| OW_WRITE
                             Address := d.Address
                             ReadCount := 0
                             CorrelationId := 0x1234
                             DelayMs := 0
                             Data := [0x4e, 0x0, 0x0, (r - 9) <<< 6] }) := by
  constructor
  · intro h
    rw [Ds18x20.Resolution, if_pos h]
  · intro h9 h12
    rw [Ds18x20.Resolution, if_neg (by omega)]
    have hm : ((r - 9) <<< 6) % 256 = (r - 9) <<< 6 := by
      rw [Nat.shiftLeft_eq]
      exact Nat.mod_eq_of_lt (by omega)
    simp [hm]

/-- C9 witness: the theorem at resolutions 8, 13 and 10. -/
theorem c9_witness :
    (Ds18x20.mk [] [] 0 0 0 0).Resolution 8 = .error "resolution must be between 9 and 12!" ∧
    (Ds18x20.mk [] [] 0 0 0 0).Resolution 13 = .error "resolution must be between 9 and 12!" ∧
    (Ds18x20.mk [] [] 0 0 0 0).Resolution 10 =
      .ok { Command := OW_RESET ||| OW_SELECT ||| OW_WRITE, Address := [], ReadCount := 0,
            CorrelationId := 0x1234, DelayMs := 0, Data := [0x4e, 0x0, 0x0, 0x40] } :=
  ⟨(c9_resolution_range_check (Ds18x20.mk [] [] 0 0 0 0) 8).1 (by omega),
   (c9_resolution_range_check (Ds18x20.mk [] [] 0 0 0 0) 13).1 (by omega),
   (c9_resolution_range_check (Ds18x20.mk [] [] 0 0 0 0) 10).2 (by omega) (by omega)⟩

/-- C8: the search reply is partitioned into consecutive 8-byte groups in
arrival order with any trailing partial group dropped, and a 17-byte reply
yields exactly the two addresses made of bytes 0-7 and 8-15. -/
theorem c8_search_partition :
    (∀ l : List Nat, OneWireSearch l = addressGroups l) ∧
    OneWireSearch (List.range 17) =
      [[0, 1, 2, 3, 4, 5, 6, 7], [8, 9, 10, 11, 12, 13, 14, 15]] := by
  constructor
  · intro l
    have h := owSearchLoop_eq_addressGroups l 0 [] (by simp) (by simp)
    simpa [OneWireSearch] using h
  · decide

/-- C6: every byte produced by the packer has its high bit clear. -/
theorem c6_packed_high_bit_clear (data : List Nat) (h : ∀ b ∈ data, b < 256) :
    ∀ x ∈ To7BitMulti data, x < 128 :=
  to7Loop_lt128 data 0 0 h (by omega) (by omega)

/-- C6 witness: the theorem on a concrete buffer exercising the carry path. -/
theorem c6_witness :
    (∀ b ∈ [0xff, 0xaa, 0x01, 0x80, 0x7f, 0xfe, 0x81, 0x55], b < 256) ∧
    (∀ x ∈ To7BitMulti [0xff, 0xaa, 0x01, 0x80, 0x7f, 0xfe, 0x81, 0x55], x < 128) :=
  ⟨by decide, c6_packed_high_bit_clear [0xff, 0xaa, 0x01, 0x80, 0x7f, 0xfe, 0x81, 0x55] (by decide)⟩

/-- C2 counterexample: on a delivered reply whose scratchpad CRC byte is
wrong, ReadScratchPad returns an error, yet the device state has changed:
the scratch field now holds the received scratchpad instead of its prior
value, contradicting the claim that every field is unchanged. -/
theorem c2_crc_failure_counterexample :
    ((Ds18x20.mk [0x28] [1, 2, 3] 0 0 0 0).ReadScratchPad
        [0, 0, 0x50, 0x05, 0x4b, 0x46, 0x7f, 0xff, 0x0c, 0x10, 0]).2.isSome = true ∧
    ((Ds18x20.mk [0x28] [1, 2, 3] 0 0 0 0).ReadScratchPad
        [0, 0, 0x50, 0x05, 0x4b, 0x46, 0x7f, 0xff, 0x0c, 0x10, 0]).1.scratch ≠ [1, 2, 3] := by
  constructor
  · decide
  · decide

/-- C2 amended: on a delivered reply with a CRC mismatch, ReadScratchPad
returns the CRC-mismatch error (carrying the received CRC, the computed CRC
and the raw scratchpad) and leaves Temperature, RegisterTh, RegisterTl and
ConfigRegister unchanged, but scratch is overwritten with the received
scratchpad bytes (the reply minus its 2-byte echo) before the check runs. -/
theorem c2_crc_failure_partial_state (d : Ds18x20) (reply : List Nat)
    (hlen : reply.length = 11)
    (hcrc : OneWireCrc8 ((reply.drop 2).take 8) ≠ (reply.drop 2).getD 8 0) :
    d.ReadScratchPad reply =
      ({ d with scratch := reply.drop 2 },
       some (OwError.crcMismatch ((reply.drop 2).getD 8 0)
             (OneWireCrc8 ((reply.drop 2).take 8)) (reply.drop 2))) := by
  have h9 : (reply.drop 2).length = 9 := by simp [hlen]
  simp only [Ds18x20.ReadScratchPad, h9]
  rw [if_pos hcrc]

/-- C2 witness: the amended theorem at a concrete device and reply. -/
theorem c2_witness :
    (Ds18x20.mk [0x28] [1, 2, 3] 0 0 0 0).ReadScratchPad
        [0, 0, 0x50, 0x05, 0x4b, 0x46, 0x7f, 0xff, 0x0c, 0x10, 0] =
      (Ds18x20.mk [0x28] [0x50, 0x05, 0x4b, 0x46, 0x7f, 0xff, 0x0c, 0x10, 0] 0 0 0 0,
       some (OwError.crcMismatch 0 0x1c [0x50, 0x05, 0x4b, 0x46, 0x7f, 0xff, 0x0c, 0x10, 0])) :=
  c2_crc_failure_partial_state (Ds18x20.mk [0x28] [1, 2, 3] 0 0 0 0)
    [0, 0, 0x50, 0x05, 0x4b, 0x46, 0x7f, 0xff, 0x0c, 0x10, 0] (by decide) (by decide)

/-- C3 counterexample: with a cached 9-bit config register and a reply whose
just-read config byte selects 12 bits, the decoded temperature is the 9-bit
masked value 0, not the 7/16 that masking by the just-read byte would give:
the mask is chosen from the cached register. -/
theorem c3_cached_resolution_counterexample :
    ((Ds18x20.mk [0x28] [] 0 0 0 0).ReadScratchPad
        [0, 0, 0x07, 0, 0, 0, 0x60, 0, 0, 0, 0x40]).1.Temperature = 0 ∧
    (0 : ℚ) ≠ 7 / 16 := by
  constructor
  · have h : ((Ds18x20.mk [0x28] [] 0 0 0 0).ReadScratchPad
        [0, 0, 0x07, 0, 0, 0, 0x60, 0, 0, 0, 0x40]).1.Temperature = ((0 : ℕ) : ℚ) / 16 := rfl
    rw [h]
    norm_num
  · norm_num

/-- C3 amended: on a successful scratchpad read of a non-legacy device, the
resolution used to choose the temperature mask comes from the ConfigRegister
value cached from before the call (parseTemperature runs before the register
fields are refreshed); the just-read config byte (scratchpad byte 4) only
lands in ConfigRegister afterwards, for use by later calls. -/
theorem c3_mask_uses_cached_config (d : Ds18x20) (reply : List Nat)
    (hlen : reply.length = 11)
    (hcrc : OneWireCrc8 ((reply.drop 2).take 8) = (reply.drop 2).getD 8 0)
    (hfam : d.Address.getD 0 0 ≠ 0x10) :
    (d.ReadScratchPad reply).1.Temperature =
      ((resolutionMask (((d.ConfigRegister >>> 5) &&& 0x3) + 9)
        ((reply.drop 2).getD 0 0 ||| ((((reply.drop 2).getD 1 0) <<< 8) % 65536)) : ℕ) : ℚ) / 16 ∧
    (d.ReadScratchPad reply).1.ConfigRegister = (reply.drop 2).getD 4 0 := by
  have h9 : (reply.drop 2).length = 9 := by simp [hlen]
  simp only [Ds18x20.ReadScratchPad, h9]
  rw [if_neg (not_not_intro hcrc)]
  simp only [Ds18x20.parseTemperature, Ds18x20.GetResolution]
  rw [if_neg hfam]
  exact ⟨rfl, rfl⟩

/-- C3 witness: the amended theorem at a concrete device whose cached config
register selects 9 bits while the reply's config byte selects 12 bits. -/
theorem c3_witness :
    ((Ds18x20.mk [0x28] [] 0 0 0 0).ReadScratchPad
        [0, 0, 0x07, 0, 0, 0, 0x60, 0, 0, 0, 0x40]).1.Temperature =
      ((resolutionMask 9 7 : ℕ) : ℚ) / 16 ∧
    ((Ds18x20.mk [0x28] [] 0 0 0 0).ReadScratchPad
        [0, 0, 0x07, 0, 0, 0, 0x60, 0, 0, 0, 0x40]).1.ConfigRegister = 0x60 :=
  c3_mask_uses_cached_config (Ds18x20.mk [0x28] [] 0 0 0 0)
    [0, 0, 0x07, 0, 0, 0, 0x60, 0, 0, 0, 0x40] (by decide) (by decide) (by decide)

/-- C5: the code decodes the 16-bit raw temperature as an unsigned value.
At 12-bit resolution (cached config 0x60) the scratchpad bytes 0x5e, 0xff
(two's-complement -162, i.e. -10.125 degrees) decode to 65374/16 = 4085.875,
not (65374 - 65536)/16: the uint16-to-float conversion never sign-extends.
The positive example of the claim, bytes 0x50, 0x05, does give 85.0. -/
theorem c5_unsigned_temperature_decode :
    (((Ds18x20.mk [0x28] [] 0 0 0 0x60).ReadScratchPad
        [0, 0, 0x5e, 0xff, 0x4b, 0x46, 0x7f, 0xff, 0x0c, 0x10, 0x6a]).1.Temperature
      = 65374 / 16) ∧
    (((Ds18x20.mk [0x28] [] 0 0 0 0x60).ReadScratchPad
        [0, 0, 0x50, 0x05, 0x4b, 0x46, 0x7f, 0xff, 0x0c, 0x10, 0x1c]).1.Temperature = 85) ∧
    (65374 / 16 : ℚ) ≠ (65374 - 65536) / 16 := by
  refine ⟨?_, ?_, by norm_num⟩
  · have h : ((Ds18x20.mk [0x28] [] 0 0 0 0x60).ReadScratchPad
        [0, 0, 0x5e, 0xff, 0x4b, 0x46, 0x7f, 0xff, 0x0c, 0x10, 0x6a]).1.Temperature
        = ((65374 : ℕ) : ℚ) / 16 := rfl
    rw [h]
    norm_num
  · have h : ((Ds18x20.mk [0x28] [] 0 0 0 0x60).ReadScratchPad
        [0, 0, 0x50, 0x05, 0x4b, 0x46, 0x7f, 0xff, 0x0c, 0x10, 0x1c]).1.Temperature
        = ((1360 : ℕ) : ℚ) / 16 := rfl
    rw [h]
    norm_num

/-- C7: Encode serializes, in order, address (if SELECT), little-endian read
count and correlation id (if READ), little-endian delay (if DELAY), write
payload (if WRITE), then packs the result; a WRITE-only request's pre-packing
body is exactly the payload, and SELECT+WRITE prepends the address. -/
theorem c7_encode_field_order :
    (∀ r : OneWireRequest, r.Encode = To7BitMulti (specRequestBody r)) ∧
    (∀ (addr w : List Nat) (rc cid dl : Int),
      (OneWireRequest.mk OW_WRITE addr rc cid dl w).Encode = To7BitMulti w ∧
      (OneWireRequest.mk (OW_SELECT ||| OW_WRITE) addr rc cid dl w).Encode =
        To7BitMulti (addr ++ w)) := by
  constructor
  · intro r
    simp only [OneWireRequest.Encode, specRequestBody]
    by_cases h1 : r.Command &&& OW_SELECT > 0 <;>
    by_cases h2 : r.Command &&& OW_READ > 0 <;>
    by_cases h3 : r.Command &&& OW_DELAY > 0 <;>
    by_cases h4 : r.Command &&& OW_WRITE > 0 <;>
    simp [h1, h2, h3, h4]
  · intro addr w rc cid dl
    constructor
    · have hs : ¬ (OW_WRITE &&& OW_SELECT > 0) := by decide
      have hr : ¬ (OW_WRITE &&& OW_READ > 0) := by decide
      have hd : ¬ (OW_WRITE &&& OW_DELAY > 0) := by decide
      have hw : OW_WRITE &&& OW_WRITE > 0 := by decide
      simp only [OneWireRequest.Encode, if_neg hs, if_neg hr, if_neg hd, if_pos hw,
        List.nil_append]
    · have hs : (OW_SELECT ||| OW_WRITE) &&& OW_SELECT > 0 := by decide
      have hr : ¬ ((OW_SELECT ||| OW_WRITE) &&& OW_READ > 0) := by decide
      have hd : ¬ ((OW_SELECT ||| OW_WRITE) &&& OW_DELAY > 0) := by decide
      have hw : (OW_SELECT ||| OW_WRITE) &&& OW_WRITE > 0 := by decide
      simp only [OneWireRequest.Encode, if_pos hs, if_neg hr, if_neg hd, if_pos hw,
        List.nil_append]

/-! ## Round-trip development for C1 -/

/-- Right shift distributes over bitwise or. -/
theorem or_shiftRight (a b k : Nat) : (a ||| b) >>> k = a >>> k ||| b >>> k := by
  apply Nat.eq_of_testBit_eq
  intro i
  simp [Nat.testBit_or, Nat.testBit_shiftRight]

/-- Reduction modulo a power of two distributes over bitwise or. -/
theorem or_mod_two_pow (a b k : Nat) : (a ||| b) % 2 ^ k = a % 2 ^ k ||| b % 2 ^ k := by
  apply Nat.eq_of_testBit_eq
  intro i
  simp [Nat.testBit_mod_two_pow, Nat.testBit_or, Bool.and_or_distrib_left]

/-- A bitwise or of values occupying disjoint bit ranges is an addition. -/
theorem or_as_add (k x z : Nat) (hx : x < 2 ^ k) (hz : z % 2 ^ k = 0) : x ||| z = x + z := by
  have hzz : 2 ^ k * (z / 2 ^ k) = z := Nat.mul_div_cancel' (Nat.dvd_of_mod_eq_zero hz)
  rw [← hzz, Nat.or_comm, ← Nat.mul_add_lt_is_or hx, Nat.add_comm]

/-- Masking with 0x7f is reduction modulo 128. -/
theorem and_127 (x : Nat) : x &&& 127 = x % 128 := by
  have h : (127 : Nat) = 2 ^ 7 - 1 := rfl
  rw [h, Nat.and_pow_two_sub_one_eq_mod]

/-- After a byte-width left shift only the low 8-k bits of the operand matter. -/
theorem shiftLeft_low_bits (V k : Nat) (hk : k ≤ 8) :
    V <<< k % 256 = (V % 2 ^ (8 - k)) <<< k % 256 := by
  rw [Nat.shiftLeft_eq, Nat.shiftLeft_eq]
  have e : 8 - k + k = 8 := by omega
  have h256 : (256 : Nat) = 2 ^ (8 - k) * 2 ^ k := by
    rw [← Nat.pow_add, e]
  rw [h256, Nat.mul_mod_mul_right, Nat.mul_mod_mul_right, Nat.mod_mod_of_dvd _ dvd_rfl]

/-- Master lemma, end of a packing run: an input byte packed at shift s (1..6)
is recovered from its packed byte and the following pure-carry byte. -/
theorem unpack_last (s a b : Nat) (hs1 : 1 ≤ s) (hs : s ≤ 6) (ha : a < 256) (hb : b < 256) :
    (b <<< s % 256 &&& 127 ||| a >>> (8 - s)) >>> s ||| (b >>> (7 - s)) <<< (7 - s) % 256 = b := by
  have h1 : (b <<< s % 256 &&& 127 ||| a >>> (8 - s)) >>> s = b % 2 ^ (7 - s) := by
    rw [or_shiftRight]
    have ha8 : a >>> (8 - s) >>> s = 0 := by
      rw [Nat.shiftRight_eq_div_pow, Nat.shiftRight_eq_div_pow, Nat.div_div_eq_div_mul,
        ← Nat.pow_add]
      have h8 : 8 - s + s = 8 := by omega
      rw [h8]
      exact Nat.div_eq_of_lt (by omega)
    rw [ha8, Nat.or_zero, and_127, Nat.shiftLeft_eq, Nat.shiftRight_eq_div_pow,
      Nat.mod_mod_of_dvd _ (by norm_num : (128 : Nat) ∣ 256)]
    have h7 : 7 - s + s = 7 := by omega
    have h128 : (128 : Nat) = 2 ^ (7 - s) * 2 ^ s := by
      rw [← Nat.pow_add, h7]
    rw [h128, Nat.mul_mod_mul_right]
    exact Nat.mul_div_cancel _ (Nat.two_pow_pos s)
  have h2 : (b >>> (7 - s)) <<< (7 - s) % 256 = b / 2 ^ (7 - s) * 2 ^ (7 - s) := by
    rw [Nat.shiftLeft_eq, Nat.shiftRight_eq_div_pow]
    exact Nat.mod_eq_of_lt (lt_of_le_of_lt (Nat.div_mul_le_self b _) hb)
  rw [h1, h2]
  rw [or_as_add (7 - s) _ _ (Nat.mod_lt _ (by positivity)) (Nat.mul_mod_left _ _)]
  exact Nat.mod_add_div' b (2 ^ (7 - s))

/-- Master lemma, middle of a packing run: an input byte packed at shift s
(1..5) is recovered from its packed byte and the following packed byte, which
mixes the carry with the next input byte. -/
theorem unpack_mid (s a b c : Nat) (hs1 : 1 ≤ s) (hs : s ≤ 5) (ha : a < 256) (hb : b < 256) :
    (b <<< s % 256 &&& 127 ||| a >>> (8 - s)) >>> s |||
      (c <<< (s + 1) % 256 &&& 127 ||| b >>> (7 - s)) <<< (7 - s) % 256 = b := by
  have h256 : (2 : Nat) ^ (s + 1) * 2 ^ (7 - s) = 256 := by
    rw [← Nat.pow_add]
    have e : s + 1 + (7 - s) = 8 := by omega
    rw [e]
  have hX : (c <<< (s + 1) % 256 &&& 127) % 2 ^ (s + 1) = 0 := by
    rw [and_127, Nat.shiftLeft_eq,
      Nat.mod_mod_of_dvd _ (by norm_num : (128 : Nat) ∣ 256)]
    have h128 : (128 : Nat) = 2 ^ (6 - s) * 2 ^ (s + 1) := by
      rw [← Nat.pow_add]
      have e : 6 - s + (s + 1) = 7 := by omega
      rw [e]
    rw [h128, Nat.mul_mod_mul_right]
    exact Nat.mul_mod_left _ _
  have hW : b >>> (7 - s) % 2 ^ (s + 1) = b >>> (7 - s) := by
    rw [Nat.shiftRight_eq_div_pow]
    refine Nat.mod_eq_of_lt ?_
    rw [Nat.div_lt_iff_lt_mul (by positivity)]
    rw [h256]
    exact hb
  have key : (c <<< (s + 1) % 256 &&& 127 ||| b >>> (7 - s)) <<< (7 - s) % 256
      = (b >>> (7 - s)) <<< (7 - s) % 256 := by
    rw [shiftLeft_low_bits _ (7 - s) (by omega)]
    have e : 8 - (7 - s) = s + 1 := by omega
    rw [e, or_mod_two_pow, hX, Nat.zero_or, hW]
  rw [key]
  exact unpack_last s a b hs1 (by omega) ha hb

/-- Master lemma, start of a packing run with a following input byte. -/
theorem unpack_head (b c : Nat) (hb : b < 256) :
    b &&& 127 ||| (c <<< 1 % 256 &&& 127 ||| b >>> 7) <<< 7 % 256 = b := by
  have hX : (c <<< 1 % 256 &&& 127) % 2 ^ 1 = 0 := by
    rw [and_127, Nat.shiftLeft_eq]
    omega
  have hW : b >>> 7 % 2 ^ 1 = b >>> 7 := by
    rw [Nat.shiftRight_eq_div_pow]
    exact Nat.mod_eq_of_lt (by omega)
  have key : (c <<< 1 % 256 &&& 127 ||| b >>> 7) <<< 7 % 256 = (b >>> 7) <<< 7 % 256 := by
    rw [shiftLeft_low_bits _ 7 (by omega)]
    have e : 8 - 7 = 1 := by omega
    rw [e, or_mod_two_pow, hX, Nat.zero_or, hW]
  rw [key, and_127, Nat.shiftRight_eq_div_pow, Nat.shiftLeft_eq]
  have hz : b / 2 ^ 7 * 2 ^ 7 % 256 = b / 2 ^ 7 * 2 ^ 7 := Nat.mod_eq_of_lt (by omega)
  rw [hz, or_as_add 7 _ _ (by omega) (by omega)]
  omega

/-- Master lemma, start of a packing run that ends the input (flush byte). -/
theorem unpack_head_last (b : Nat) (hb : b < 256) :
    b &&& 127 ||| b >>> 7 <<< 7 % 256 = b := by
  rw [and_127, Nat.shiftRight_eq_div_pow, Nat.shiftLeft_eq]
  have hz : b / 2 ^ 7 * 2 ^ 7 % 256 = b / 2 ^ 7 * 2 ^ 7 := Nat.mod_eq_of_lt (by omega)
  rw [hz, or_as_add 7 _ _ (by omega) (by omega)]
  omega

/-- C1 amended: the round trip holds once the unpacker's two-byte echo skip is
accounted for and the buffer is at most 13 bytes long: for any two leading
bytes, unpacking them followed by the packed form of B recovers B exactly.
The plain round trip From7BitMulti(To7BitMulti(B)) fails (counterexample
below), and from 14 bytes on the unpacker's every-7th-index skip falls out of
step with the packer's 8-packed-bytes-per-7-input layout, witnessed by the
concrete 15-byte buffer of the second conjunct (at exactly 14 bytes the Go
code would also index out of range). -/
theorem c1_roundtrip_prefixed :
    (∀ (p0 p1 : Nat) (B : List Nat), B.length ≤ 13 → (∀ b ∈ B, b < 256) →
      From7BitMulti (p0 :: p1 :: To7BitMulti B) = B) ∧
    From7BitMulti (0 :: 0 :: To7BitMulti
        [101, 138, 175, 212, 249, 30, 67, 104, 141, 178, 215, 252, 33, 70, 107]) ≠
      [101, 138, 175, 212, 249, 30, 67, 104, 141, 178, 215, 252, 33, 70, 107] := by
  constructor
  swap
  · decide
  intro p0 p1 B hlen hbytes
  rcases B with _ | ⟨b0, _ | ⟨b1, _ | ⟨b2, _ | ⟨b3, _ | ⟨b4, _ | ⟨b5, _ | ⟨b6, _ | ⟨b7, _ | ⟨b8, _ | ⟨b9, _ | ⟨b10, _ | ⟨b11, _ | ⟨b12, rest⟩⟩⟩⟩⟩⟩⟩⟩⟩⟩⟩⟩⟩
  · simp [To7BitMulti, to7Loop, From7BitMulti, from7Go]
  · have h0 : b0 < 256 := hbytes _ (by simp)
    simp [To7BitMulti, to7Loop, From7BitMulti, from7Go, List.getD]
    exact unpack_head_last b0 h0
  · have h0 : b0 < 256 := hbytes _ (by simp)
    have h1 : b1 < 256 := hbytes _ (by simp)
    simp [To7BitMulti, to7Loop, From7BitMulti, from7Go, List.getD]
    exact ⟨unpack_head b0 b1 h0,
      unpack_last 1 b0 b1 (by omega) (by omega) h0 h1⟩
  · have h0 : b0 < 256 := hbytes _ (by simp)
    have h1 : b1 < 256 := hbytes _ (by simp)
    have h2 : b2 < 256 := hbytes _ (by simp)
    simp [To7BitMulti, to7Loop, From7BitMulti, from7Go, List.getD]
    exact ⟨unpack_head b0 b1 h0,
      unpack_mid 1 b0 b1 b2 (by omega) (by omega) h0 h1,
      unpack_last 2 b1 b2 (by omega) (by omega) h1 h2⟩
  · have h0 : b0 < 256 := hbytes _ (by simp)
    have h1 : b1 < 256 := hbytes _ (by simp)
    have h2 : b2 < 256 := hbytes _ (by simp)
    have h3 : b3 < 256 := hbytes _ (by simp)
    simp [To7BitMulti, to7Loop, From7BitMulti, from7Go, List.getD]
    exact ⟨unpack_head b0 b1 h0,
      unpack_mid 1 b0 b1 b2 (by omega) (by omega) h0 h1,
      unpack_mid 2 b1 b2 b3 (by omega) (by omega) h1 h2,
      unpack_last 3 b2 b3 (by omega) (by omega) h2 h3⟩
  · have h0 : b0 < 256 := hbytes _ (by simp)
    have h1 : b1 < 256 := hbytes _ (by simp)
    have h2 : b2 < 256 := hbytes _ (by simp)
    have h3 : b3 < 256 := hbytes _ (by simp)
    have h4 : b4 < 256 := hbytes _ (by simp)
    simp [To7BitMulti, to7Loop, From7BitMulti, from7Go, List.getD]
    exact ⟨unpack_head b0 b1 h0,
      unpack_mid 1 b0 b1 b2 (by omega) (by omega) h0 h1,
      unpack_mid 2 b1 b2 b3 (by omega) (by omega) h1 h2,
      unpack_mid 3 b2 b3 b4 (by omega) (by omega) h2 h3,
      unpack_last 4 b3 b4 (by omega) (by omega) h3 h4⟩
  · have h0 : b0 < 256 := hbytes _ (by simp)
    have h1 : b1 < 256 := hbytes _ (by simp)
    have h2 : b2 < 256 := hbytes _ (by simp)
    have h3 : b3 < 256 := hbytes _ (by simp)
    have h4 : b4 < 256 := hbytes _ (by simp)
    have h5 : b5 < 256 := hbytes _ (by simp)
    simp [To7BitMulti, to7Loop, From7BitMulti, from7Go, List.getD]
    exact ⟨unpack_head b0 b1 h0,
      unpack_mid 1 b0 b1 b2 (by omega) (by omega) h0 h1,
      unpack_mid 2 b1 b2 b3 (by omega) (by omega) h1 h2,
      unpack_mid 3 b2 b3 b4 (by omega) (by omega) h2 h3,
      unpack_mid 4 b3 b4 b5 (by omega) (by omega) h3 h4,
      unpack_last 5 b4 b5 (by omega) (by omega) h4 h5⟩
  · have h0 : b0 < 256 := hbytes _ (by simp)
    have h1 : b1 < 256 := hbytes _ (by simp)
    have h2 : b2 < 256 := hbytes _ (by simp)
    have h3 : b3 < 256 := hbytes _ (by simp)
    have h4 : b4 < 256 := hbytes _ (by simp)
    have h5 : b5 < 256 := hbytes _ (by simp)
    have h6 : b6 < 256 := hbytes _ (by simp)
    simp [To7BitMulti, to7Loop, From7BitMulti, from7Go, List.getD]
    exact ⟨unpack_head b0 b1 h0,
      unpack_mid 1 b0 b1 b2 (by omega) (by omega) h0 h1,
      unpack_mid 2 b1 b2 b3 (by omega) (by omega) h1 h2,
      unpack_mid 3 b2 b3 b4 (by omega) (by omega) h2 h3,
      unpack_mid 4 b3 b4 b5 (by omega) (by omega) h3 h4,
      unpack_mid 5 b4 b5 b6 (by omega) (by omega) h4 h5,
      unpack_last 6 b5 b6 (by omega) (by omega) h5 h6⟩
  · have h0 : b0 < 256 := hbytes _ (by simp)
    have h1 : b1 < 256 := hbytes _ (by simp)
    have h2 : b2 < 256 := hbytes _ (by simp)
    have h3 : b3 < 256 := hbytes _ (by simp)
    have h4 : b4 < 256 := hbytes _ (by simp)
    have h5 : b5 < 256 := hbytes _ (by simp)
    have h6 : b6 < 256 := hbytes _ (by simp)
    have h7 : b7 < 256 := hbytes _ (by simp)
    simp [To7BitMulti, to7Loop, From7BitMulti, from7Go, List.getD]
    exact ⟨unpack_head b0 b1 h0,
      unpack_mid 1 b0 b1 b2 (by omega) (by omega) h0 h1,
      unpack_mid 2 b1 b2 b3 (by omega) (by omega) h1 h2,
      unpack_mid 3 b2 b3 b4 (by omega) (by omega) h2 h3,
      unpack_mid 4 b3 b4 b5 (by omega) (by omega) h3 h4,
      unpack_mid 5 b4 b5 b6 (by omega) (by omega) h4 h5,
      unpack_last 6 b5 b6 (by omega) (by omega) h5 h6,
      unpack_head_last b7 h7⟩
  · have h0 : b0 < 256 := hbytes _ (by simp)
    have h1 : b1 < 256 := hbytes _ (by simp)
    have h2 : b2 < 256 := hbytes _ (by simp)
    have h3 : b3 < 256 := hbytes _ (by simp)
    have h4 : b4 < 256 := hbytes _ (by simp)
    have h5 : b5 < 256 := hbytes _ (by simp)
    have h6 : b6 < 256 := hbytes _ (by simp)
    have h7 : b7 < 256 := hbytes _ (by simp)
    have h8 : b8 < 256 := hbytes _ (by simp)
    simp [To7BitMulti, to7Loop, From7BitMulti, from7Go, List.getD]
    exact ⟨unpack_head b0 b1 h0,
      unpack_mid 1 b0 b1 b2 (by omega) (by omega) h0 h1,
      unpack_mid 2 b1 b2 b3 (by omega) (by omega) h1 h2,
      unpack_mid 3 b2 b3 b4 (by omega) (by omega) h2 h3,
      unpack_mid 4 b3 b4 b5 (by omega) (by omega) h3 h4,
      unpack_mid 5 b4 b5 b6 (by omega) (by omega) h4 h5,
      unpack_last 6 b5 b6 (by omega) (by omega) h5 h6,
      unpack_head b7 b8 h7,
      unpack_last 1 b7 b8 (by omega) (by omega) h7 h8⟩
  · have h0 : b0 < 256 := hbytes _ (by simp)
    have h1 : b1 < 256 := hbytes _ (by simp)
    have h2 : b2 < 256 := hbytes _ (by simp)
    have h3 : b3 < 256 := hbytes _ (by simp)
    have h4 : b4 < 256 := hbytes _ (by simp)
    have h5 : b5 < 256 := hbytes _ (by simp)
    have h6 : b6 < 256 := hbytes _ (by simp)
    have h7 : b7 < 256 := hbytes _ (by simp)
    have h8 : b8 < 256 := hbytes _ (by simp)
    have h9 : b9 < 256 := hbytes _ (by simp)
    simp [To7BitMulti, to7Loop, From7BitMulti, from7Go, List.getD]
    exact ⟨unpack_head b0 b1 h0,
      unpack_mid 1 b0 b1 b2 (by omega) (by omega) h0 h1,
      unpack_mid 2 b1 b2 b3 (by omega) (by omega) h1 h2,
      unpack_mid 3 b2 b3 b4 (by omega) (by omega) h2 h3,
      unpack_mid 4 b3 b4 b5 (by omega) (by omega) h3 h4,
      unpack_mid 5 b4 b5 b6 (by omega) (by omega) h4 h5,
      unpack_last 6 b5 b6 (by omega) (by omega) h5 h6,
      unpack_head b7 b8 h7,
      unpack_mid 1 b7 b8 b9 (by omega) (by omega) h7 h8,
      unpack_last 2 b8 b9 (by omega) (by omega) h8 h9⟩
  · have h0 : b0 < 256 := hbytes _ (by simp)
    have h1 : b1 < 256 := hbytes _ (by simp)
    have h2 : b2 < 256 := hbytes _ (by simp)
    have h3 : b3 < 256 := hbytes _ (by simp)
    have h4 : b4 < 256 := hbytes _ (by simp)
    have h5 : b5 < 256 := hbytes _ (by simp)
    have h6 : b6 < 256 := hbytes _ (by simp)
    have h7 : b7 < 256 := hbytes _ (by simp)
    have h8 : b8 < 256 := hbytes _ (by simp)
    have h9 : b9 < 256 := hbytes _ (by simp)
    have h10 : b10 < 256 := hbytes _ (by simp)
    simp [To7BitMulti, to7Loop, From7BitMulti, from7Go, List.getD]
    exact ⟨unpack_head b0 b1 h0,
      unpack_mid 1 b0 b1 b2 (by omega) (by omega) h0 h1,
      unpack_mid 2 b1 b2 b3 (by omega) (by omega) h1 h2,
      unpack_mid 3 b2 b3 b4 (by omega) (by omega) h2 h3,
      unpack_mid 4 b3 b4 b5 (by omega) (by omega) h3 h4,
      unpack_mid 5 b4 b5 b6 (by omega) (by omega) h4 h5,
      unpack_last 6 b5 b6 (by omega) (by omega) h5 h6,
      unpack_head b7 b8 h7,
      unpack_mid 1 b7 b8 b9 (by omega) (by omega) h7 h8,
      unpack_mid 2 b8 b9 b10 (by omega) (by omega) h8 h9,
      unpack_last 3 b9 b10 (by omega) (by omega) h9 h10⟩
  · have h0 : b0 < 256 := hbytes _ (by simp)
    have h1 : b1 < 256 := hbytes _ (by simp)
    have h2 : b2 < 256 := hbytes _ (by simp)
    have h3 : b3 < 256 := hbytes _ (by simp)
    have h4 : b4 < 256 := hbytes _ (by simp)
    have h5 : b5 < 256 := hbytes _ (by simp)
    have h6 : b6 < 256 := hbytes _ (by simp)
    have h7 : b7 < 256 := hbytes _ (by simp)
    have h8 : b8 < 256 := hbytes _ (by simp)
    have h9 : b9 < 256 := hbytes _ (by simp)
    have h10 : b10 < 256 := hbytes _ (by simp)
    have h11 : b11 < 256 := hbytes _ (by simp)
    simp [To7BitMulti, to7Loop, From7BitMulti, from7Go, List.getD]
    exact ⟨unpack_head b0 b1 h0,
      unpack_mid 1 b0 b1 b2 (by omega) (by omega) h0 h1,
      unpack_mid 2 b1 b2 b3 (by omega) (by omega) h1 h2,
      unpack_mid 3 b2 b3 b4 (by omega) (by omega) h2 h3,
      unpack_mid 4 b3 b4 b5 (by omega) (by omega) h3 h4,
      unpack_mid 5 b4 b5 b6 (by omega) (by omega) h4 h5,
      unpack_last 6 b5 b6 (by omega) (by omega) h5 h6,
      unpack_head b7 b8 h7,
      unpack_mid 1 b7 b8 b9 (by omega) (by omega) h7 h8,
      unpack_mid 2 b8 b9 b10 (by omega) (by omega) h8 h9,
      unpack_mid 3 b9 b10 b11 (by omega) (by omega) h9 h10,
      unpack_last 4 b10 b11 (by omega) (by omega) h10 h11⟩
  · have hnil : rest = [] := by
      simp only [List.length_cons] at hlen
      exact List.length_eq_zero.mp (by omega)
    subst hnil
    have h0 : b0 < 256 := hbytes _ (by simp)
    have h1 : b1 < 256 := hbytes _ (by simp)
    have h2 : b2 < 256 := hbytes _ (by simp)
    have h3 : b3 < 256 := hbytes _ (by simp)
    have h4 : b4 < 256 := hbytes _ (by simp)
    have h5 : b5 < 256 := hbytes _ (by simp)
    have h6 : b6 < 256 := hbytes _ (by simp)
    have h7 : b7 < 256 := hbytes _ (by simp)
    have h8 : b8 < 256 := hbytes _ (by simp)
    have h9 : b9 < 256 := hbytes _ (by simp)
    have h10 : b10 < 256 := hbytes _ (by simp)
    have h11 : b11 < 256 := hbytes _ (by simp)
    have h12 : b12 < 256 := hbytes _ (by simp)
    simp [To7BitMulti, to7Loop, From7BitMulti, from7Go, List.getD]
    exact ⟨unpack_head b0 b1 h0,
      unpack_mid 1 b0 b1 b2 (by omega) (by omega) h0 h1,
      unpack_mid 2 b1 b2 b3 (by omega) (by omega) h1 h2,
      unpack_mid 3 b2 b3 b4 (by omega) (by omega) h2 h3,
      unpack_mid 4 b3 b4 b5 (by omega) (by omega) h3 h4,
      unpack_mid 5 b4 b5 b6 (by omega) (by omega) h4 h5,
      unpack_last 6 b5 b6 (by omega) (by omega) h5 h6,
      unpack_head b7 b8 h7,
      unpack_mid 1 b7 b8 b9 (by omega) (by omega) h7 h8,
      unpack_mid 2 b8 b9 b10 (by omega) (by omega) h8 h9,
      unpack_mid 3 b9 b10 b11 (by omega) (by omega) h9 h10,
      unpack_mid 4 b10 b11 b12 (by omega) (by omega) h10 h11,
      unpack_last 5 b11 b12 (by omega) (by omega) h11 h12⟩

/-- C1 witness: the amended theorem at a concrete 13-byte buffer. -/
theorem c1_witness :
    From7BitMulti (0xAA :: 0x55 :: To7BitMulti
        [1, 2, 3, 4, 5, 6, 7, 8, 9, 250, 251, 252, 253]) =
      [1, 2, 3, 4, 5, 6, 7, 8, 9, 250, 251, 252, 253] :=
  c1_roundtrip_prefixed.1 0xAA 0x55 [1, 2, 3, 4, 5, 6, 7, 8, 9, 250, 251, 252, 253]
    (by decide) (by decide)
